import Mathlib

/-!
Verification of the text-to-image rendering engine of `sticker_bot.py`
(functions `image_to_sticker`, `add_text_to_image`, `load_font`,
`download_font`, `apply_image_filter`, `generate_quote_image`).

The Python functions are shallowly embedded as Lean functions.  Library
calls (Pillow's `Image.open`, `paste`, `thumbnail`, `ImageOps.*`,
`ImageDraw.textbbox`, the filesystem and the network) are modelled as
explicit parameters or as Lean functions following Pillow's documented
semantics; pixel buffers are functions from coordinates to channel values.
Saving to PNG is lossless, so an encoded output is represented by its
decoded raster.  Exceptions that a Python function catches and turns into
`return None` are modelled by `Option.none`.
-/

namespace StickerBot

/-! ## Data model -/

/-- One pixel: red, green, blue, alpha channel values (0..255). -/
structure RGBA where
  r : Nat
  g : Nat
  b : Nat
  a : Nat
deriving DecidableEq, Repr

/-- Pillow color modes that the code distinguishes (`'RGBA', 'LA', 'P'`
are flattened; `'L'` is the grayscale result mode). -/
inductive Mode where
  | RGB
  | RGBA
  | LA
  | P
  | L
deriving DecidableEq, Repr

/-- A raster image: mode, dimensions, and the pixel buffer.  For palette
images the buffer holds the palette-resolved colors. -/
structure Img where
  mode : Mode
  width : Nat
  height : Nat
  px : Nat → Nat → RGBA

/-- Wellformedness: every channel value fits in a byte, as Pillow
guarantees for its buffers. -/
def Wf (img : Img) : Prop :=
  ∀ x y, (img.px x y).r ≤ 255 ∧ (img.px x y).g ≤ 255 ∧
    (img.px x y).b ≤ 255 ∧ (img.px x y).a ≤ 255

/-! ## Pillow primitives used by the code -/

/-- Pillow's `MULDIV255` macro: `tmp = a*b + 128; (tmp + (tmp >> 8)) >> 8`,
the rounded product `a*b/255` used by `paste` when blending with a mask. -/
def muldiv255 (a b : Nat) : Nat :=
  (a * b + 128 + (a * b + 128) / 256) / 256

/-- Alpha-blending a pixel onto an opaque white background, as done by
`background.paste(image, mask=alpha)`:
`out = MULDIV255(src, a) + MULDIV255(255, 255 - a)`. -/
def blendOnWhite (p : RGBA) : RGBA :=
  { r := muldiv255 p.r p.a + muldiv255 255 (255 - p.a)
  , g := muldiv255 p.g p.a + muldiv255 255 (255 - p.a)
  , b := muldiv255 p.b p.a + muldiv255 255 (255 - p.a)
  , a := 255 }

/-- Lines 806-812 / 843-847 of the source: if the mode is RGBA, LA or P,
paste onto a white RGB background, with the alpha channel as mask only in
the RGBA case (`mask=image.split()[-1] if image.mode == 'RGBA' else None`);
a maskless paste copies the color channels. -/
def convertToRGB (img : Img) : Img :=
  if img.mode = Mode.RGBA ∨ img.mode = Mode.LA ∨ img.mode = Mode.P then
    { mode := Mode.RGB
    , width := img.width
    , height := img.height
    , px := fun x y =>
        if img.mode = Mode.RGBA then blendOnWhite (img.px x y)
        else ⟨(img.px x y).r, (img.px x y).g, (img.px x y).b, 255⟩ }
  else img

/-- Nearest-integer division, used to model Pillow's aspect rounding in
`Image.thumbnail` (`round_aspect` picks between floor and ceiling the value
closest to the true aspect, i.e. the nearest integer to `a / b`). -/
def natRoundDiv (a b : Nat) : Nat :=
  (2 * a + b) / (2 * b)

/-- Geometry of Pillow's `Image.thumbnail((maxW, maxH))`: unchanged when
already within bounds, otherwise the constraining dimension is set to its
bound and the other is scaled by the aspect ratio (rounded, at least 1).
Never upscales. -/
def thumbnailSize (w h maxW maxH : Nat) : Nat × Nat :=
  if w ≤ maxW ∧ h ≤ maxH then (w, h)
  else if w * maxH ≤ maxW * h then
    (max (natRoundDiv (maxH * w) h) 1, maxH)
  else
    (maxW, max (natRoundDiv (maxW * h) w) 1)

/-- Model of `image.thumbnail(max_size, Image.Resampling.LANCZOS)`.  The
geometry follows Pillow; the LANCZOS kernel itself is abstracted as
coordinate sampling — no claim in this development depends on the values
of resampled pixels, only on dimensions and on pixels of unresampled
stages. -/
def thumbnailImg (img : Img) (maxW maxH : Nat) : Img :=
  { mode := img.mode
  , width := (thumbnailSize img.width img.height maxW maxH).1
  , height := (thumbnailSize img.width img.height maxW maxH).2
  , px := fun x y =>
      img.px (x * img.width / (thumbnailSize img.width img.height maxW maxH).1)
             (y * img.height / (thumbnailSize img.width img.height maxW maxH).2) }

/-- Lines 818-824 of the source: a white square canvas of the given side,
with the image pasted at offset `((size - w) // 2, (size - h) // 2)`. -/
def pasteCanvas (img : Img) (size : Nat) : Img :=
  { mode := Mode.RGB
  , width := size
  , height := size
  , px := fun x y =>
      if (size - img.width) / 2 ≤ x ∧ x < (size - img.width) / 2 + img.width ∧
         (size - img.height) / 2 ≤ y ∧ y < (size - img.height) / 2 + img.height then
        img.px (x - (size - img.width) / 2) (y - (size - img.height) / 2)
      else ⟨255, 255, 255, 255⟩ }

/-- Pillow's `image.convert('RGB')`: drops the alpha channel (no blending). -/
def convertRGBdrop (img : Img) : Img :=
  { mode := Mode.RGB
  , width := img.width
  , height := img.height
  , px := fun x y => ⟨(img.px x y).r, (img.px x y).g, (img.px x y).b, 255⟩ }

/-- Pillow's ITU-R 601-2 luma transform used by `convert('L')`
(`L24` macro: `(r*19595 + g*38470 + b*7471 + 0x8000) >> 16`). -/
def grayLuma (p : RGBA) : Nat :=
  (p.r * 19595 + p.g * 38470 + p.b * 7471 + 32768) / 65536

/-- `ImageOps.grayscale(image)` = `image.convert('L')`; an L image viewed
as RGB has all three channels equal to the luma. -/
def grayscaleImg (img : Img) : Img :=
  { mode := Mode.L
  , width := img.width
  , height := img.height
  , px := fun x y => ⟨grayLuma (img.px x y), grayLuma (img.px x y), grayLuma (img.px x y), 255⟩ }

/-- `ImageOps.invert`: every channel becomes `255 - c`. -/
def invertImg (img : Img) : Img :=
  { mode := img.mode
  , width := img.width
  , height := img.height
  , px := fun x y =>
      ⟨255 - (img.px x y).r, 255 - (img.px x y).g, 255 - (img.px x y).b, 255⟩ }

/-- `ImageOps.posterize(image, bits)`: keep the top `bits` bits of each
color channel. -/
def posterizeImg (img : Img) (bits : Nat) : Img :=
  { mode := img.mode
  , width := img.width
  , height := img.height
  , px := fun x y =>
      ⟨(img.px x y).r / 2 ^ (8 - bits) * 2 ^ (8 - bits)
      , (img.px x y).g / 2 ^ (8 - bits) * 2 ^ (8 - bits)
      , (img.px x y).b / 2 ^ (8 - bits) * 2 ^ (8 - bits)
      , (img.px x y).a⟩ }

/-- `ImageOps.solarize(image, threshold)`: invert all channel values at or
above the threshold. -/
def solarizeImg (img : Img) (threshold : Nat) : Img :=
  { mode := img.mode
  , width := img.width
  , height := img.height
  , px := fun x y =>
      ⟨(if (img.px x y).r < threshold then (img.px x y).r else 255 - (img.px x y).r)
      , (if (img.px x y).g < threshold then (img.px x y).g else 255 - (img.px x y).g)
      , (if (img.px x y).b < threshold then (img.px x y).b else 255 - (img.px x y).b)
      , (img.px x y).a⟩ }

/-! ## Filter pipeline (`apply_image_filter`, lines 977-1004)

`Image.open` is the `decode` parameter; an undecodable input is `none`
(the caught exception path returning `None`).  The final
`filtered_image.save(output, format="PNG")` is lossless and is represented
by the raster itself. -/

/-- Lines 977-1004 of the source: decode, dispatch on the filter name,
with an identity fallthrough (`else: filtered_image = image`) for
unrecognized names. -/
def apply_image_filter (decode : List Nat → Option Img) (image_bytes : List Nat)
    (filter_type : String) : Option Img :=
  match decode image_bytes with
  | none => none
  | some image =>
    some
      (if filter_type = "grayscale" then grayscaleImg image
       else if filter_type = "invert" then invertImg (convertRGBdrop image)
       else if filter_type = "posterize" then posterizeImg image 3
       else if filter_type = "solarize" then solarizeImg image 128
       else image)

/-! ## Font resolver (`load_font` lines 914-951, `download_font` lines 953-975)

The filesystem and the network are parameters: `ex` models
`os.path.exists`, `tryPath` models `ImageFont.truetype(path, size)` with
`none` for a raised exception, `tryUrl` models one whole per-url attempt
of `download_font` (HTTP GET, status check, file write, truetype load) —
any failure in it is `none` — and `mkdirOk` models whether
`os.makedirs("fonts", exist_ok=True)` succeeds (its failure is the one
exception `download_font` can propagate, caught by `load_font`). -/

/-- A font handle: either a TrueType font from a path at a size, or
Pillow's built-in `ImageFont.load_default()`. -/
inductive Font where
  | truetype (path : String) (size : Nat)
  | builtin
deriving DecidableEq, Repr

/-- Termux font candidate paths (lines 917-921). -/
def termux_fonts : List String :=
  [ "/data/data/com.termux/files/usr/share/fonts/truetype/dejavu/DejaVuSans.ttf"
  , "/data/data/com.termux/files/usr/share/fonts/truetype/liberation/LiberationSans-Regular.ttf"
  , "/data/data/com.termux/files/usr/share/fonts/TTF/DejaVuSans.ttf" ]

/-- System font candidate paths (lines 924-928). -/
def system_fonts : List String :=
  [ "/system/fonts/Roboto-Regular.ttf"
  , "/system/fonts/DroidSans.ttf"
  , "/system/fonts/NotoSans-Regular.ttf" ]

/-- Local font candidate paths (lines 931-935). -/
def local_fonts : List String :=
  [ "fonts/Roboto-Regular.ttf", "fonts/arial.ttf", "arial.ttf" ]

/-- Line 938: `font_paths = termux_fonts + system_fonts + local_fonts`. -/
def font_paths : List String := termux_fonts ++ system_fonts ++ local_fonts

/-- Download URLs (lines 955-958). -/
def font_urls : List String :=
  [ "https://github.com/googlefonts/roboto/raw/main/src/hinted/Roboto-Regular.ttf"
  , "https://raw.githubusercontent.com/googlefonts/roboto/main/src/hinted/Roboto-Regular.ttf" ]

/-- Lines 940-945: walk the candidate paths; a path is used when it exists
and loads; a load failure falls through to the next path. -/
def fontPathLoop (ex : String → Bool) (tryPath : String → Nat → Option Font)
    (size : Nat) : List String → Option Font
  | [] => none
  | p :: rest =>
    if ex p then
      match tryPath p size with
      | some f => some f
      | none => fontPathLoop ex tryPath size rest
    else fontPathLoop ex tryPath size rest

/-- Lines 962-973: try each URL; any per-url failure falls through; total
exhaustion returns the built-in default (line 975). -/
def downloadLoop (tryUrl : String → Nat → Option Font) (size : Nat) :
    List String → Font
  | [] => Font.builtin
  | u :: rest =>
    match tryUrl u size with
    | some f => f
    | none => downloadLoop tryUrl size rest

/-- Lines 953-975: `download_font`.  The only uncaught failure point is
`os.makedirs` (line 960), modelled by `mkdirOk`. -/
def download_font (mkdirOk : Bool) (tryUrl : String → Nat → Option Font)
    (size : Nat) : Except Unit Font :=
  if mkdirOk then Except.ok (downloadLoop tryUrl size font_urls)
  else Except.error ()

/-- Lines 914-951: `load_font`.  Filesystem candidates first, then the
download, and `ImageFont.load_default()` if the download raises. -/
def load_font (ex : String → Bool) (tryPath : String → Nat → Option Font)
    (mkdirOk : Bool) (tryUrl : String → Nat → Option Font) (size : Nat) : Font :=
  match fontPathLoop ex tryPath size font_paths with
  | some f => f
  | none =>
    match download_font mkdirOk tryUrl size with
    | Except.ok f => f
    | Except.error _ => Font.builtin

/-! ## Quote-card word wrapping (`generate_quote_image`, lines 1032-1058)

The font metric `draw.textbbox((0,0), s, font)[2] - [0]` is the parameter
`meas : String → Nat`. -/

/-- Scanner for Python's whitespace split: accumulate non-whitespace
characters, closing a word at each whitespace run. -/
def splitWs : List Char → List Char → List String
  | [], acc => if acc = [] then [] else [String.mk acc.reverse]
  | c :: cs, acc =>
    if c.isWhitespace then
      if acc = [] then splitWs cs []
      else String.mk acc.reverse :: splitWs cs []
    else splitWs cs (c :: acc)

/-- Python's `text.split()`: split on whitespace runs, dropping empty
pieces. -/
def pySplit (s : String) : List String := splitWs s.data []

/-- Python's `' '.join(current_line)`. -/
def pyJoin : List String → String
  | [] => ""
  | [w] => w
  | w :: ws => w ++ " " ++ pyJoin ws

/-- Lines 1037-1046: the greedy accumulation loop.  State is the words
still to place, the closed lines, and the current line's words; a word
whose addition overflows is popped, the current line is closed, and the
word starts the next line. -/
def wrapLoop (meas : String → Nat) (maxW : Nat) :
    List String → List String → List String → List String × List String
  | [], lines, cur => (lines, cur)
  | w :: ws, lines, cur =>
    if meas (pyJoin (cur ++ [w])) > maxW then
      wrapLoop meas maxW ws (lines ++ [pyJoin cur]) [w]
    else
      wrapLoop meas maxW ws lines (cur ++ [w])

/-- Lines 1033-1049: run the loop over the words and flush a nonempty
final line (`if current_line: lines.append(...)`). -/
def wrapText (meas : String → Nat) (maxW : Nat) (ws : List String) : List String :=
  if (wrapLoop meas maxW ws [] []).2 = [] then (wrapLoop meas maxW ws [] []).1
  else (wrapLoop meas maxW ws [] []).1 ++ [pyJoin (wrapLoop meas maxW ws [] []).2]

/-- The wrapped line sequence of `generate_quote_image`: the canvas is
512 wide and the overflow test is `line_width > width - 100`. -/
def generate_quote_lines (meas : String → Nat) (text : String) : List String :=
  wrapText meas (512 - 100) (pySplit text)

/-- Line 1053: only `lines[:6]` are drawn. -/
def generate_quote_drawn (meas : String → Nat) (text : String) : List String :=
  (generate_quote_lines meas text).take 6

/-! ## Meme composition (`add_text_to_image`, lines 837-912) and
sticker normalization (`image_to_sticker`, lines 802-835) -/

/-- Result of `draw.textbbox((0, 0), s, font=font)`: the rendered
bounding box `(x0, y0, x1, y1)` of `s` drawn at the origin. -/
structure BBox where
  x0 : Int
  y0 : Int
  x1 : Int
  y1 : Int
deriving DecidableEq, Repr

/-- One `draw.text((x, y), line, ...)` call: anchor and line drawn.  Fill,
stroke width and stroke color are the same constants on every call
(`fill="white", stroke_width=3, stroke_fill="black"`) and are not
recorded. -/
structure DrawCall where
  x : Int
  y : Int
  line : String
deriving DecidableEq, Repr

/-- `bbox[2] - bbox[0]`, the measured text width. -/
def textW (bb : String → BBox) (s : String) : Int := (bb s).x1 - (bb s).x0

/-- `bbox[3] - bbox[1]`, the measured text height (called `line_height`
at line 871 of the source). -/
def textH (bb : String → BBox) (s : String) : Int := (bb s).y1 - (bb s).y0

/-- Python's `text.split('\n')`: split at every newline, keeping empty
pieces. -/
def splitNl : List Char → List Char → List String
  | [], acc => [String.mk acc.reverse]
  | c :: cs, acc =>
    if c = '\n' then String.mk acc.reverse :: splitNl cs []
    else splitNl cs (c :: acc)

/-- Line 857: `lines = text.split('\n') if '\n' in text else [text]` —
the only line splitting `add_text_to_image` performs. -/
def memeLines (text : String) : List String :=
  if text.data.contains '\n' then splitNl text.data [] else [text]

/-- Lines 876-901: with ≥ 2 lines, draw `lines[0]` at `(centered, 10)` and
`lines[1]` at `(centered, height - bbox[3] - 10)`, dropping the rest; with
one line, center it both ways; an empty list would make `lines[0]` raise
(caught, giving `None`).  Python's `//` is `Int.fdiv`. -/
def memeDraws (bb : String → BBox) (w h : Int) : List String → Option (List DrawCall)
  | l1 :: l2 :: _ =>
    some [ ⟨(w - textW bb l1).fdiv 2, 10, l1⟩
         , ⟨(w - textW bb l2).fdiv 2, h - (bb l2).y1 - 10, l2⟩ ]
  | [l1] =>
    some [ ⟨(w - textW bb l1).fdiv 2, (h - textH bb l1).fdiv 2, l1⟩ ]
  | [] => none

/-- Lines 837-912: decode, flatten transparency, thumbnail to ≤ 512, then
place the caption lines.  The result pairs the canvas with the draw calls
made on it.  The font is the abstract metric `bb`; the unused
`total_height` computation at lines 866-873 has no observable effect and
is omitted. -/
def add_text_to_image (decode : List Nat → Option Img) (bb : String → BBox)
    (image_bytes : List Nat) (text : String) : Option (Img × List DrawCall) :=
  match decode image_bytes with
  | none => none
  | some img0 =>
    let image := thumbnailImg (convertToRGB img0) 512 512
    match memeDraws bb (image.width : Int) (image.height : Int) (memeLines text) with
    | none => none
    | some ds => some (image, ds)

/-- Lines 802-835: decode, flatten transparency, thumbnail to ≤ 512, pad
to a square of side `max(width, height)` when not already square. -/
def image_to_sticker (decode : List Nat → Option Img) (image_bytes : List Nat) :
    Option Img :=
  match decode image_bytes with
  | none => none
  | some image0 =>
    let image := thumbnailImg (convertToRGB image0) 512 512
    some
      (if image.width ≠ image.height then
        pasteCanvas image (max image.width image.height)
      else image)

/-! ## Concrete instances used by witnesses and counterexamples -/

/-- A small concrete RGB test image. -/
def testImg : Img :=
  { mode := Mode.RGB, width := 2, height := 2
  , px := fun x y => ⟨x % 256, y % 256, 7, 255⟩ }

/-- A concrete decoder recognizing exactly the byte string `[1]`. -/
def testDecode : List Nat → Option Img :=
  fun b => if b = [1] then some testImg else none

/-- The byte string `testDecode` accepts. -/
def testBytes : List Nat := [1]

/-- A decoder on which every input is undecodable. -/
def failDecode : List Nat → Option Img := fun _ => none

/-- An absent filesystem: no candidate font path exists. -/
def noFs : String → Bool := fun _ => false

/-- A loader that is never reached / always raises. -/
def noLoad : String → Nat → Option Font := fun _ _ => none

/-- An unreachable network: every download attempt fails. -/
def noNet : String → Nat → Option Font := fun _ _ => none

/-- A concrete 512×512 black RGB image. -/
def img512 : Img :=
  { mode := Mode.RGB, width := 512, height := 512
  , px := fun _ _ => ⟨0, 0, 0, 255⟩ }

/-- A decoder always yielding `img512`. -/
def dec512 : List Nat → Option Img := fun _ => some img512

/-- A concrete font metric: every string's box is `(0, 10, 100, 40)`, a
realistic shape with a nonzero top bearing (`y0 = 10`). -/
def cbb : String → BBox := fun _ => ⟨0, 10, 100, 40⟩

/-- A concrete font metric whose boxes are wider than a 512px canvas. -/
def cbbWide : String → BBox := fun _ => ⟨0, 10, 2000, 40⟩

/-- A concrete 800×600 RGB image (the spec's end-to-end scenario shape). -/
def img800 : Img :=
  { mode := Mode.RGB, width := 800, height := 600
  , px := fun x y => ⟨x % 256, y % 256, 0, 255⟩ }

/-- A decoder always yielding `img800`. -/
def dec800 : List Nat → Option Img := fun _ => some img800

/-- A concrete font metric on strings: 100 pixels per character. -/
def meas100 : String → Nat := fun s => 100 * s.length

/-- A concrete font metric on strings: 10 pixels per character. -/
def meas10 : String → Nat := fun s => 10 * s.length

/-- A concrete RGBA image with one opaque and one transparent pixel
column. -/
def wimgRGBA : Img :=
  { mode := Mode.RGBA, width := 2, height := 1
  , px := fun x _ => if x = 0 then ⟨10, 20, 30, 255⟩ else ⟨1, 2, 3, 0⟩ }

end StickerBot

namespace StickerBot

/-! ## Claim C2 -/

/-- Claim C2, counterexample: on a decodable input with the unrecognized
filter name `"sepia"`, `apply_image_filter` succeeds and returns the
decoded input image unmodified — it does not raise any
`UnsupportedFilterError`. -/
theorem apply_image_filter_sepia_passthrough :
    testDecode testBytes = some testImg ∧
    apply_image_filter testDecode testBytes "sepia" = some testImg :=
  ⟨rfl, rfl⟩

/-- Claim C2, amended: for every decodable input and every filter name
outside the supported set, `apply_image_filter` returns the decoded image
unmodified as a success value; no error is signalled. -/
theorem apply_image_filter_unrecognized (decode : List Nat → Option Img)
    (image_bytes : List Nat) (filter_type : String) (img : Img)
    (hd : decode image_bytes = some img)
    (h1 : filter_type ≠ "grayscale") (h2 : filter_type ≠ "invert")
    (h3 : filter_type ≠ "posterize") (h4 : filter_type ≠ "solarize") :
    apply_image_filter decode image_bytes filter_type = some img := by
  simp [apply_image_filter, hd, h1, h2, h3, h4]

/-- Claim C2, witness for the amended theorem at the concrete input
`"sepia"`. -/
theorem apply_image_filter_unrecognized_witness :
    apply_image_filter testDecode testBytes "sepia" = some testImg :=
  apply_image_filter_unrecognized testDecode testBytes "sepia" testImg rfl
    (by decide) (by decide) (by decide) (by decide)

/-! ## Claim C3 -/

/-- Helper: when no candidate path exists, the filesystem walk of
`load_font` yields nothing. -/
theorem fontPathLoop_all_absent (ex : String → Bool)
    (tryPath : String → Nat → Option Font) (size : Nat) :
    ∀ ps : List String, (∀ p ∈ ps, ex p = false) →
      fontPathLoop ex tryPath size ps = none := by
  intro ps
  induction ps with
  | nil => intro _; rfl
  | cons p rest ih =>
    intro h
    have hp : ex p = false := h p (List.mem_cons_self p rest)
    have hrest : ∀ q ∈ rest, ex q = false :=
      fun q hq => h q (List.mem_cons_of_mem p hq)
    simp [fontPathLoop, hp, ih hrest]

/-- Helper: when every URL attempt fails, the download loop degrades to
the built-in font. -/
theorem downloadLoop_all_fail (tryUrl : String → Nat → Option Font) (size : Nat) :
    ∀ us : List String, (∀ u ∈ us, tryUrl u size = none) →
      downloadLoop tryUrl size us = Font.builtin := by
  intro us
  induction us with
  | nil => intro _; rfl
  | cons u rest ih =>
    intro h
    have hu : tryUrl u size = none := h u (List.mem_cons_self u rest)
    have hrest : ∀ v ∈ rest, tryUrl v size = none :=
      fun v hv => h v (List.mem_cons_of_mem u hv)
    simp [downloadLoop, hu, ih hrest]

/-- Claim C3: for every requested size, when every filesystem candidate
path is absent and every network download fails — whether or not the
`fonts` directory can even be created — `load_font` returns the built-in
default font; it never fails. -/
theorem load_font_total_fallback (ex : String → Bool)
    (tryPath : String → Nat → Option Font) (mkdirOk : Bool)
    (tryUrl : String → Nat → Option Font) (size : Nat)
    (hfs : ∀ p ∈ font_paths, ex p = false)
    (hnet : ∀ u ∈ font_urls, tryUrl u size = none) :
    load_font ex tryPath mkdirOk tryUrl size = Font.builtin := by
  unfold load_font
  rw [fontPathLoop_all_absent ex tryPath size font_paths hfs]
  cases mkdirOk with
  | false => rfl
  | true =>
    simp [download_font, downloadLoop_all_fail tryUrl size font_urls hnet]

/-- Claim C3, witness: with the concrete empty filesystem and unreachable
network, resolution at size 40 returns the built-in font in both the
writable and the read-only `fonts`-directory situations. -/
theorem load_font_total_fallback_witness :
    load_font noFs noLoad true noNet 40 = Font.builtin ∧
    load_font noFs noLoad false noNet 40 = Font.builtin :=
  ⟨load_font_total_fallback noFs noLoad true noNet 40
      (fun _ _ => rfl) (fun _ _ => rfl),
   load_font_total_fallback noFs noLoad false noNet 40
      (fun _ _ => rfl) (fun _ _ => rfl)⟩

/-! ## Claim C6 -/

/-- Claim C6: an undecodable input is a hard error for all three
image-consuming operations — each returns the failure value `none` (the
source's `return None` after the caught decode exception), never a
success, and the decoder is consulted exactly once (each definition calls
`decode` once; there is no retry path). -/
theorem decode_failure_hard_error (decode : List Nat → Option Img)
    (bb : String → BBox) (image_bytes : List Nat) (text filter_type : String)
    (hd : decode image_bytes = none) :
    image_to_sticker decode image_bytes = none ∧
    add_text_to_image decode bb image_bytes text = none ∧
    apply_image_filter decode image_bytes filter_type = none := by
  refine ⟨?_, ?_, ?_⟩ <;>
    simp [image_to_sticker, add_text_to_image, apply_image_filter, hd]

/-- Claim C6, witness at the concrete always-failing decoder. -/
theorem decode_failure_hard_error_witness :
    image_to_sticker failDecode testBytes = none ∧
    add_text_to_image failDecode cbb testBytes "hi" = none ∧
    apply_image_filter failDecode testBytes "grayscale" = none :=
  decode_failure_hard_error failDecode cbb testBytes "hi" "grayscale" rfl

/-! ## Claims C1 and C10: the quote-card word wrapper -/

/-- Helper invariant for the greedy loop: every closed line either fits or
is a single input word, and the current line is empty, a single input
word, or measured within bounds. -/
theorem wrapLoop_ok (meas : String → Nat) (maxW : Nat) (W : List String)
    (hε : meas "" = 0) :
    ∀ (rest lines cur : List String),
      (∀ w ∈ rest, w ∈ W) →
      (∀ l ∈ lines, meas l ≤ maxW ∨ l ∈ W) →
      (cur = [] ∨ (∃ w ∈ W, cur = [w]) ∨ meas (pyJoin cur) ≤ maxW) →
      (∀ l ∈ (wrapLoop meas maxW rest lines cur).1, meas l ≤ maxW ∨ l ∈ W) ∧
      ((wrapLoop meas maxW rest lines cur).2 = [] ∨
       (∃ w ∈ W, (wrapLoop meas maxW rest lines cur).2 = [w]) ∨
       meas (pyJoin (wrapLoop meas maxW rest lines cur).2) ≤ maxW) := by
  intro rest
  induction rest with
  | nil =>
    intro lines cur _ hl hc
    exact ⟨hl, hc⟩
  | cons w ws ih =>
    intro lines cur hrest hl hc
    have hw : w ∈ W := hrest w (List.mem_cons_self w ws)
    have hrest' : ∀ v ∈ ws, v ∈ W := fun v hv => hrest v (List.mem_cons_of_mem w hv)
    by_cases hover : meas (pyJoin (cur ++ [w])) > maxW
    · have heq : wrapLoop meas maxW (w :: ws) lines cur =
          wrapLoop meas maxW ws (lines ++ [pyJoin cur]) [w] := by
        simp only [wrapLoop, if_pos hover]
      rw [heq]
      refine ih (lines ++ [pyJoin cur]) [w] hrest' ?_ ?_
      · intro l hlmem
        rcases List.mem_append.mp hlmem with h1 | h2
        · exact hl l h1
        · have hle : l = pyJoin cur := List.mem_singleton.mp h2
          subst hle
          rcases hc with hnil | ⟨v, hvW, hveq⟩ | hfit
          · subst hnil
            exact Or.inl (by simp [pyJoin, hε])
          · subst hveq
            exact Or.inr (by simpa [pyJoin] using hvW)
          · exact Or.inl hfit
      · exact Or.inr (Or.inl ⟨w, hw, rfl⟩)
    · have heq : wrapLoop meas maxW (w :: ws) lines cur =
          wrapLoop meas maxW ws lines (cur ++ [w]) := by
        simp only [wrapLoop, if_neg hover]
      rw [heq]
      exact ih lines (cur ++ [w]) hrest' hl
        (Or.inr (Or.inr (Nat.le_of_not_lt hover)))

/-- Claim C1: for every text, font metric, and maximum width, every line
produced by the word-wrapping step of `generate_quote_image` measures at
most the maximum width, except that a line may be a single input word
(which is exactly the case of a word whose own width exceeds the maximum,
placed alone and unbroken).  The metric hypothesis `meas "" = 0` records
that an empty string renders with zero width. -/
theorem wrap_width_invariant (meas : String → Nat) (maxW : Nat) (text : String)
    (hε : meas "" = 0) :
    ∀ l ∈ wrapText meas maxW (pySplit text),
      meas l ≤ maxW ∨ l ∈ pySplit text := by
  intro l hl
  have h := wrapLoop_ok meas maxW (pySplit text) hε (pySplit text) [] []
    (fun _ hw => hw) (by simp) (Or.inl rfl)
  unfold wrapText at hl
  by_cases h2 : (wrapLoop meas maxW (pySplit text) [] []).2 = []
  · rw [if_pos h2] at hl
    exact h.1 l hl
  · rw [if_neg h2] at hl
    rcases List.mem_append.mp hl with h1 | hsing
    · exact h.1 l h1
    · have hle : l = pyJoin (wrapLoop meas maxW (pySplit text) [] []).2 :=
        List.mem_singleton.mp hsing
      subst hle
      rcases h.2 with hnil | ⟨v, hvW, hveq⟩ | hfit
      · exact absurd hnil h2
      · rw [hveq]
        exact Or.inr (by simpa [pyJoin] using hvW)
      · exact Or.inl hfit

/-- Claim C1, witness at a concrete metric (10px per character), width
412, and text; the hypothesis and the instantiated invariant. -/
theorem wrap_width_invariant_witness :
    meas10 "" = 0 ∧
    ∀ l ∈ wrapText meas10 412 (pySplit "greedy line fill with backtrack"),
      meas10 l ≤ 412 ∨ l ∈ pySplit "greedy line fill with backtrack" :=
  ⟨rfl, wrap_width_invariant meas10 412 "greedy line fill with backtrack" rfl⟩

/-- Helper: the loop only ever appends to the list of closed lines. -/
theorem wrapLoop_lines_prefix (meas : String → Nat) (maxW : Nat) :
    ∀ (rest lines cur : List String),
      lines <+: (wrapLoop meas maxW rest lines cur).1 := by
  intro rest
  induction rest with
  | nil => intro lines cur; exact List.prefix_refl lines
  | cons w ws ih =>
    intro lines cur
    by_cases hover : meas (pyJoin (cur ++ [w])) > maxW
    · have heq : wrapLoop meas maxW (w :: ws) lines cur =
          wrapLoop meas maxW ws (lines ++ [pyJoin cur]) [w] := by
        simp only [wrapLoop, if_pos hover]
      rw [heq]
      exact (List.prefix_append lines [pyJoin cur]).trans
        (ih (lines ++ [pyJoin cur]) [w])
    · have heq : wrapLoop meas maxW (w :: ws) lines cur =
          wrapLoop meas maxW ws lines (cur ++ [w]) := by
        simp only [wrapLoop, if_neg hover]
      rw [heq]
      exact ih lines (cur ++ [w])

/-- Claim C10: when the first word of the text is itself wider than the
maximum line width, the wrapper of `generate_quote_image` closes the
still-empty current line, so the drawn line sequence (capped at 6 lines)
starts with — and hence contains — the empty string. -/
theorem quote_wrap_empty_line (meas : String → Nat) (text w0 : String)
    (rest : List String) (hsplit : pySplit text = w0 :: rest)
    (hover : meas w0 > 512 - 100) :
    (generate_quote_drawn meas text).head? = some "" ∧
    "" ∈ generate_quote_drawn meas text := by
  have hover' : meas (pyJoin ([] ++ [w0])) > 512 - 100 := by simpa [pyJoin] using hover
  have hstep : wrapLoop meas (512 - 100) (w0 :: rest) [] [] =
      wrapLoop meas (512 - 100) rest [""] [w0] := by
    simp only [wrapLoop, if_pos hover']
    rfl
  obtain ⟨t, ht⟩ := wrapLoop_lines_prefix meas (512 - 100) rest [""] [w0]
  have hlines : ∃ t', generate_quote_lines meas text = "" :: t' := by
    unfold generate_quote_lines wrapText
    rw [hsplit, hstep]
    by_cases h2 : (wrapLoop meas (512 - 100) rest [""] [w0]).2 = []
    · rw [if_pos h2, ← ht]
      exact ⟨t, rfl⟩
    · rw [if_neg h2, ← ht]
      exact ⟨t ++ [pyJoin (wrapLoop meas (512 - 100) rest [""] [w0]).2], by simp⟩
  obtain ⟨t', ht'⟩ := hlines
  constructor
  · unfold generate_quote_drawn
    rw [ht']
    rfl
  · unfold generate_quote_drawn
    rw [ht']
    exact List.mem_cons_self "" _

/-- Claim C10, witness: a concrete 1300px-wide first word against the
412px limit makes the first drawn line the empty string. -/
theorem quote_wrap_empty_line_witness :
    pySplit "pneumonoultra hi" = "pneumonoultra" :: ["hi"] ∧
    meas100 "pneumonoultra" > 512 - 100 ∧
    (generate_quote_drawn meas100 "pneumonoultra hi").head? = some "" ∧
    "" ∈ generate_quote_drawn meas100 "pneumonoultra hi" := by
  have h := quote_wrap_empty_line meas100 "pneumonoultra hi" "pneumonoultra"
    ["hi"] (by decide) (by decide)
  exact ⟨by decide, by decide, h.1, h.2⟩

/-! ## Claim C5: meme caption placement -/

/-- Claim C5, counterexample: with a font whose boxes are `(0,10,100,40)`
(a realistic nonzero top bearing) on a 512×512 image, the second caption
line is drawn at `y = 462 = 512 - bbox.y1 - 10`, not at
`512 - renderedHeight - 10 = 472` as the claim's formula states. -/
theorem meme_bottom_anchor_cex :
    (add_text_to_image dec512 cbb testBytes "A\nB").map
        (fun p => p.2.map (fun d => d.y)) = some [10, 462] ∧
    (512 : Int) - textH cbb "B" - 10 = 472 ∧
    (462 : Int) ≠ 472 := by
  refine ⟨?_, by decide, by decide⟩
  rfl

/-- Claim C5, amended: with ≥ 2 caption lines, the first is drawn
horizontally centered at the fixed top margin `y = 10`, the second
horizontally centered at `y = height - bbox.y1 - 10` — the image height
minus the *bottom coordinate* of the line's rendered bounding box (its
rendered height plus its top bearing) minus the fixed margin — and every
line beyond the second is dropped; a single line is centered both ways
(`y = (height - renderedHeight) // 2`). -/
theorem meme_text_placement (decode : List Nat → Option Img) (bb : String → BBox)
    (image_bytes : List Nat) (text : String) (img0 : Img)
    (hd : decode image_bytes = some img0) :
    (∀ l1 l2 rest2, memeLines text = l1 :: l2 :: rest2 →
      add_text_to_image decode bb image_bytes text =
        some (thumbnailImg (convertToRGB img0) 512 512,
          [ ⟨(((thumbnailImg (convertToRGB img0) 512 512).width : Int) -
                textW bb l1).fdiv 2, 10, l1⟩
          , ⟨(((thumbnailImg (convertToRGB img0) 512 512).width : Int) -
                textW bb l2).fdiv 2,
              ((thumbnailImg (convertToRGB img0) 512 512).height : Int) -
                (bb l2).y1 - 10, l2⟩ ])) ∧
    (∀ l1, memeLines text = [l1] →
      add_text_to_image decode bb image_bytes text =
        some (thumbnailImg (convertToRGB img0) 512 512,
          [ ⟨(((thumbnailImg (convertToRGB img0) 512 512).width : Int) -
                textW bb l1).fdiv 2,
             (((thumbnailImg (convertToRGB img0) 512 512).height : Int) -
                textH bb l1).fdiv 2, l1⟩ ])) := by
  constructor
  · intro l1 l2 rest2 h
    unfold add_text_to_image
    rw [hd, h]
    rfl
  · intro l1 h
    unfold add_text_to_image
    rw [hd, h]
    rfl

/-- Claim C5, witness for the amended placement at concrete inputs. -/
theorem meme_text_placement_witness :
    (add_text_to_image dec512 cbb testBytes "X\nY").map
      (fun p => p.2.map (fun d => (d.x, d.y, d.line))) =
      some [(206, 10, "X"), (206, 462, "Y")] := by
  have h := (meme_text_placement dec512 cbb testBytes "X\nY" img512 rfl).1
    "X" "Y" [] (by decide)
  rw [h]
  rfl

/-! ## Claim C9: no width-based wrapping in the meme composer -/

/-- Claim C9, counterexample: the caption `"HELLO WORLD"` has no newline,
so `add_text_to_image` places it as one line even though its measured
width (2000) exceeds the 512px image width and it is not a single word
(it splits into two words) — no width-measured wrapping happens. -/
theorem meme_no_wrap_cex :
    memeLines "HELLO WORLD" = ["HELLO WORLD"] ∧
    pySplit "HELLO WORLD" = ["HELLO", "WORLD"] ∧
    textW cbbWide "HELLO WORLD" = 2000 ∧
    (add_text_to_image dec512 cbbWide testBytes "HELLO WORLD").map
      (fun p => p.2.map (fun d => d.line)) = some ["HELLO WORLD"] := by
  refine ⟨by decide, by decide, by decide, ?_⟩
  rfl

/-- Claim C9, amended: before placing text, `add_text_to_image` splits the
caption only on explicit newline markers; the placed line strings are the
first two pieces of that split, identical under any two font metrics — the
measured glyph widths are never consulted for line breaking, so a placed
line need not fit the image width. -/
theorem meme_newline_split_only (decode : List Nat → Option Img)
    (bb1 bb2 : String → BBox) (image_bytes : List Nat) (text : String)
    (img0 : Img) (hd : decode image_bytes = some img0)
    (l1 : String) (rest : List String) (hl : memeLines text = l1 :: rest) :
    (add_text_to_image decode bb1 image_bytes text).map
      (fun p => p.2.map (fun d => d.line)) = some ((l1 :: rest).take 2) ∧
    (add_text_to_image decode bb2 image_bytes text).map
      (fun p => p.2.map (fun d => d.line)) = some ((l1 :: rest).take 2) := by
  cases rest with
  | nil =>
    constructor <;> (unfold add_text_to_image; rw [hd, hl]; rfl)
  | cons r2 rs =>
    constructor <;> (unfold add_text_to_image; rw [hd, hl]; rfl)

/-- Claim C9, witness for the amended theorem: two different metrics, same
placed line strings. -/
theorem meme_newline_split_only_witness :
    (add_text_to_image dec512 cbb testBytes "HELLO WORLD").map
      (fun p => p.2.map (fun d => d.line)) = some ["HELLO WORLD"] ∧
    (add_text_to_image dec512 cbbWide testBytes "HELLO WORLD").map
      (fun p => p.2.map (fun d => d.line)) = some ["HELLO WORLD"] :=
  meme_newline_split_only dec512 cbb cbbWide testBytes "HELLO WORLD" img512 rfl
    "HELLO WORLD" [] (by decide)

/-! ## Claim C7: alpha flattening -/

/-- Helper: Pillow's rounded multiply by 0 is 0. -/
theorem muldiv255_zero (a : Nat) : muldiv255 a 0 = 0 := by
  simp [muldiv255]

set_option maxRecDepth 8192 in
/-- Helper: on byte values, Pillow's rounded multiply by 255/255 is the
identity. -/
theorem muldiv255_byte_full : ∀ a : Fin 256, muldiv255 a.val 255 = a.val := by
  decide

/-- Helper: `muldiv255 a 255 = a` for byte values. -/
theorem muldiv255_full (a : Nat) (h : a ≤ 255) : muldiv255 a 255 = a := by
  simpa using muldiv255_byte_full ⟨a, Nat.lt_succ_of_le h⟩

/-- Helper: blending a fully transparent pixel onto white gives white. -/
theorem blendOnWhite_transparent (p : RGBA) (ha : p.a = 0) :
    blendOnWhite p = ⟨255, 255, 255, 255⟩ := by
  have h1 : muldiv255 255 255 = 255 := by decide
  simp [blendOnWhite, ha, muldiv255_zero, h1]

/-- Helper: blending a fully opaque pixel onto white preserves its color
channels exactly. -/
theorem blendOnWhite_opaque (p : RGBA) (ha : p.a = 255)
    (hr : p.r ≤ 255) (hg : p.g ≤ 255) (hb : p.b ≤ 255) :
    blendOnWhite p = ⟨p.r, p.g, p.b, 255⟩ := by
  have h0 : muldiv255 255 0 = 0 := muldiv255_zero 255
  simp [blendOnWhite, ha, muldiv255_full p.r hr, muldiv255_full p.g hg,
    muldiv255_full p.b hb, h0]

/-- Claim C7: flattening an RGBA source (the shared normalization step of
`image_to_sticker` and `add_text_to_image`) yields an opaque RGB image of
the same dimensions in which a fully transparent pixel becomes the white
background and a fully opaque pixel's RGB values are preserved exactly. -/
theorem alpha_flatten_endpoints (img : Img) (hm : img.mode = Mode.RGBA)
    (hwf : Wf img) :
    (convertToRGB img).mode = Mode.RGB ∧
    (convertToRGB img).width = img.width ∧
    (convertToRGB img).height = img.height ∧
    ∀ x y,
      ((img.px x y).a = 0 →
        (convertToRGB img).px x y = ⟨255, 255, 255, 255⟩) ∧
      ((img.px x y).a = 255 →
        (convertToRGB img).px x y =
          ⟨(img.px x y).r, (img.px x y).g, (img.px x y).b, 255⟩) := by
  refine ⟨by simp [convertToRGB, hm], by simp [convertToRGB, hm],
    by simp [convertToRGB, hm], ?_⟩
  intro x y
  have hpx : (convertToRGB img).px x y = blendOnWhite (img.px x y) := by
    simp [convertToRGB, hm]
  obtain ⟨hr, hg, hb, _⟩ := hwf x y
  exact ⟨fun ha => by rw [hpx, blendOnWhite_transparent (img.px x y) ha],
    fun ha => by rw [hpx, blendOnWhite_opaque (img.px x y) ha hr hg hb]⟩

/-- Claim C7, witness at a concrete RGBA image with one opaque and one
transparent pixel. -/
theorem alpha_flatten_endpoints_witness :
    (convertToRGB wimgRGBA).mode = Mode.RGB ∧
    (convertToRGB wimgRGBA).px 1 0 = ⟨255, 255, 255, 255⟩ ∧
    (convertToRGB wimgRGBA).px 0 0 = ⟨10, 20, 30, 255⟩ := by
  have h := alpha_flatten_endpoints wimgRGBA rfl
    (fun x y => by by_cases hx : x = 0 <;> simp [wimgRGBA, hx])
  refine ⟨h.1, ?_, ?_⟩
  · exact (h.2.2.2 1 0).1 (by simp [wimgRGBA])
  · simpa [wimgRGBA] using (h.2.2.2 0 0).2 (by simp [wimgRGBA])

/-! ## Claim C8: grayscale and invert filters -/

/-- Claim C8: for every decodable input, the grayscale filter's output has
equal R, G, B channels at every pixel (the luma value), and the invert
filter's output has every color channel equal to 255 minus the
corresponding input channel. -/
theorem filter_gray_invert_correct (decode : List Nat → Option Img)
    (image_bytes : List Nat) (img : Img)
    (hd : decode image_bytes = some img) :
    (apply_image_filter decode image_bytes "grayscale" =
        some (grayscaleImg img) ∧
      ∀ x y, ((grayscaleImg img).px x y).r = ((grayscaleImg img).px x y).g ∧
        ((grayscaleImg img).px x y).g = ((grayscaleImg img).px x y).b) ∧
    (apply_image_filter decode image_bytes "invert" =
        some (invertImg (convertRGBdrop img)) ∧
      ∀ x y,
        ((invertImg (convertRGBdrop img)).px x y).r = 255 - (img.px x y).r ∧
        ((invertImg (convertRGBdrop img)).px x y).g = 255 - (img.px x y).g ∧
        ((invertImg (convertRGBdrop img)).px x y).b = 255 - (img.px x y).b) := by
  refine ⟨⟨?_, fun x y => ⟨rfl, rfl⟩⟩, ⟨?_, fun x y => ⟨rfl, rfl, rfl⟩⟩⟩
  · simp [apply_image_filter, hd]
  · simp [apply_image_filter, hd]

/-- Claim C8, witness at the concrete test image. -/
theorem filter_gray_invert_correct_witness :
    apply_image_filter testDecode testBytes "grayscale" =
      some (grayscaleImg testImg) ∧
    ((grayscaleImg testImg).px 0 1).r = ((grayscaleImg testImg).px 0 1).g ∧
    apply_image_filter testDecode testBytes "invert" =
      some (invertImg (convertRGBdrop testImg)) ∧
    ((invertImg (convertRGBdrop testImg)).px 0 1).r =
      255 - (testImg.px 0 1).r := by
  have h := filter_gray_invert_correct testDecode testBytes testImg rfl
  exact ⟨h.1.1, (h.1.2 0 1).1, h.2.1, (h.2.2 0 1).1⟩

/-! ## Claim C4: square sticker geometry -/

/-- Helper: transparency flattening preserves the width. -/
theorem convertToRGB_width (img : Img) : (convertToRGB img).width = img.width := by
  unfold convertToRGB
  split <;> rfl

/-- Helper: transparency flattening preserves the height. -/
theorem convertToRGB_height (img : Img) : (convertToRGB img).height = img.height := by
  unfold convertToRGB
  split <;> rfl

/-- Helper: thumbnail geometry against a 512×512 bound never upscales,
keeps both dimensions at least 1, and makes the larger output dimension
exactly `min 512 (max W H)`. -/
theorem thumbnailSize_spec (W H : Nat) (hW : 1 ≤ W) (hH : 1 ≤ H) :
    (thumbnailSize W H 512 512).1 ≤ W ∧
    (thumbnailSize W H 512 512).2 ≤ H ∧
    1 ≤ (thumbnailSize W H 512 512).1 ∧
    1 ≤ (thumbnailSize W H 512 512).2 ∧
    max (thumbnailSize W H 512 512).1 (thumbnailSize W H 512 512).2 =
      min 512 (max W H) := by
  unfold thumbnailSize
  by_cases h1 : W ≤ 512 ∧ H ≤ 512
  · rw [if_pos h1]
    simp only []
    omega
  · rw [if_neg h1]
    by_cases h2 : W * 512 ≤ 512 * H
    · rw [if_pos h2]
      have hWH : W ≤ H := by omega
      have hH513 : 513 ≤ H := by omega
      have h2H : 0 < 2 * H := by omega
      have hkey : 1026 * W ≤ 2 * H * W := Nat.mul_le_mul_right W (by omega)
      have hlt1 : 2 * (512 * W) + H < (W + 1) * (2 * H) := by nlinarith
      have hr_leW : natRoundDiv (512 * W) H ≤ W := by
        unfold natRoundDiv
        have := (Nat.div_lt_iff_lt_mul h2H).mpr hlt1
        omega
      have hlt2 : 2 * (512 * W) + H < 513 * (2 * H) := by omega
      have hr_le512 : natRoundDiv (512 * W) H ≤ 512 := by
        unfold natRoundDiv
        have := (Nat.div_lt_iff_lt_mul h2H).mpr hlt2
        omega
      simp only []
      omega
    · rw [if_neg h2]
      have hWH : H ≤ W := by omega
      have hW513 : 513 ≤ W := by omega
      have h2W : 0 < 2 * W := by omega
      have hkey : 1026 * H ≤ 2 * W * H := Nat.mul_le_mul_right H (by omega)
      have hlt1 : 2 * (512 * H) + W < (H + 1) * (2 * W) := by nlinarith
      have hr_leH : natRoundDiv (512 * H) W ≤ H := by
        unfold natRoundDiv
        have := (Nat.div_lt_iff_lt_mul h2W).mpr hlt1
        omega
      have hlt2 : 2 * (512 * H) + W < 513 * (2 * W) := by omega
      have hr_le512 : natRoundDiv (512 * H) W ≤ 512 := by
        unfold natRoundDiv
        have := (Nat.div_lt_iff_lt_mul h2W).mpr hlt2
        omega
      simp only []
      omega

/-- Claim C4: normalizing a decodable non-square W×H image yields a square
S×S image with S = min(512, max(W, H)); the thumbnail step never upscales
either dimension; the surviving content sits at offset
`((S - w') / 2, (S - h') / 2)` — centered, with the two paddings on each
axis equal to within one pixel. -/
theorem image_to_sticker_square (decode : List Nat → Option Img)
    (image_bytes : List Nat) (img0 : Img)
    (hd : decode image_bytes = some img0)
    (_hne : img0.width ≠ img0.height)
    (hW : 1 ≤ img0.width) (hH : 1 ≤ img0.height) :
    ∃ out, image_to_sticker decode image_bytes = some out ∧
      out.width = min 512 (max img0.width img0.height) ∧
      out.height = min 512 (max img0.width img0.height) ∧
      (thumbnailSize img0.width img0.height 512 512).1 ≤ img0.width ∧
      (thumbnailSize img0.width img0.height 512 512).2 ≤ img0.height ∧
      (∀ x y, x < (thumbnailSize img0.width img0.height 512 512).1 →
        y < (thumbnailSize img0.width img0.height 512 512).2 →
        out.px
          ((min 512 (max img0.width img0.height) -
            (thumbnailSize img0.width img0.height 512 512).1) / 2 + x)
          ((min 512 (max img0.width img0.height) -
            (thumbnailSize img0.width img0.height 512 512).2) / 2 + y) =
          (thumbnailImg (convertToRGB img0) 512 512).px x y) ∧
      (∀ s, s = min 512 (max img0.width img0.height) →
        ∀ d, d = (thumbnailSize img0.width img0.height 512 512).1 ∨
              d = (thumbnailSize img0.width img0.height 512 512).2 →
          (s - d) / 2 ≤ (s - d) - (s - d) / 2 ∧
          (s - d) - (s - d) / 2 ≤ (s - d) / 2 + 1) := by
  obtain ⟨hw1, hh1, hw2, hh2, hmax⟩ := thumbnailSize_spec img0.width img0.height hW hH
  have himgw : (thumbnailImg (convertToRGB img0) 512 512).width =
      (thumbnailSize img0.width img0.height 512 512).1 := by
    simp [thumbnailImg, convertToRGB_width, convertToRGB_height]
  have himgh : (thumbnailImg (convertToRGB img0) 512 512).height =
      (thumbnailSize img0.width img0.height 512 512).2 := by
    simp [thumbnailImg, convertToRGB_width, convertToRGB_height]
  have hpad : ∀ s d : Nat, (s - d) / 2 ≤ (s - d) - (s - d) / 2 ∧
      (s - d) - (s - d) / 2 ≤ (s - d) / 2 + 1 := by
    intro s d
    omega
  simp only [image_to_sticker, hd]
  by_cases heq : (thumbnailSize img0.width img0.height 512 512).1 =
      (thumbnailSize img0.width img0.height 512 512).2
  · have hcond : ¬ ((thumbnailImg (convertToRGB img0) 512 512).width ≠
        (thumbnailImg (convertToRGB img0) 512 512).height) := by
      rw [himgw, himgh]
      exact fun hc => hc heq
    rw [if_neg hcond]
    have hSw : min 512 (max img0.width img0.height) =
        (thumbnailSize img0.width img0.height 512 512).1 := by
      omega
    refine ⟨thumbnailImg (convertToRGB img0) 512 512, rfl, ?_, ?_, hw1, hh1, ?_, ?_⟩
    · rw [himgw]; omega
    · rw [himgh]; omega
    · intro x y hx hy
      have hx0 : (min 512 (max img0.width img0.height) -
          (thumbnailSize img0.width img0.height 512 512).1) / 2 + x = x := by
        omega
      have hy0 : (min 512 (max img0.width img0.height) -
          (thumbnailSize img0.width img0.height 512 512).2) / 2 + y = y := by
        omega
      rw [hx0, hy0]
    · intro s hs d _
      exact hpad s d
  · have hcond : (thumbnailImg (convertToRGB img0) 512 512).width ≠
        (thumbnailImg (convertToRGB img0) 512 512).height := by
      rw [himgw, himgh]
      exact heq
    rw [if_pos hcond]
    have hsize : max (thumbnailImg (convertToRGB img0) 512 512).width
        (thumbnailImg (convertToRGB img0) 512 512).height =
        min 512 (max img0.width img0.height) := by
      rw [himgw, himgh]
      exact hmax
    refine ⟨_, rfl, ?_, ?_, hw1, hh1, ?_, ?_⟩
    · simp [pasteCanvas, hsize]
    · simp [pasteCanvas, hsize]
    · intro x y hx hy
      simp only [pasteCanvas, hsize, himgw, himgh]
      rw [if_pos]
      · congr 1 <;> omega
      · refine ⟨?_, ?_, ?_, ?_⟩ <;> omega
    · intro s hs d _
      exact hpad s d

/-- Claim C4, witness: an 800×600 image becomes a 512×512 square whose
content was downscaled to 512×384. -/
theorem image_to_sticker_square_witness :
    (image_to_sticker dec800 testBytes).map Img.width = some 512 ∧
    (image_to_sticker dec800 testBytes).map Img.height = some 512 ∧
    thumbnailSize 800 600 512 512 = (512, 384) := by
  obtain ⟨out, h1, h2, h3, _⟩ := image_to_sticker_square dec800 testBytes img800
    rfl (by decide) (by decide) (by decide)
  rw [h1]
  refine ⟨?_, ?_, by decide⟩
  · simp [h2, img800]
  · simp [h3, img800]

end StickerBot
